import Mathlib

/-!
# Verification of the ReadoutCard control-plane core

Shallow embedding of the SCA protocol engine
(`src/CommandLineUtilities/AliceLowlevelFrontend/Sca.cxx`), the card
enumeration/resolution logic (`src/RocPciDevice.cxx`) and the CRU register
setters, together with theorems settling the specification claims.

The SCA engine is modelled as a function of a read oracle `ScaEnv`
(mapping the index of a read operation and a register index to the 32-bit
value the hardware returns) and a running read counter, producing an
`Except` result together with the trace of bar-level events performed.
-/
/-! ## Registers and constants (Sca.cxx, namespace Registers / MAX_BUSY_ITERATIONS) -/
/-! ## Sca.cxx operations -/
/-! ## Trace projections -/

namespace Sca

def WRITE_DATA : Nat := 0x1e0 / 4

def WRITE_COMMAND : Nat := 0x1e4 / 4

def CONTROL : Nat := 0x1e8 / 4

def BUSY : Nat := 0x1ec / 4

def READ_DATA : Nat := 0x1f0 / 4

def READ_COMMAND : Nat := 0x1f4 / 4

def TIME : Nat := 0x1fc / 4

/-- `Offset::CRORC` / `Offset::CRU` / `Offset::OTHER` are all 0. -/
def scaOffset : Nat := 0

def MAX_BUSY_ITERATIONS : Nat := 10000

/-- One bar-level (or SCA-call marker) event of an execution.
`cmdWrite`/`cmdRead` mark the entry into `Sca::write` and the successful
return of `Sca::read`, annotating the trace with the SCA-level operations. -/
inductive Event where
  | barWrite (index data : Nat)
  | barRead (index value : Nat)
  | cmdWrite (command data : Nat)
  | cmdRead (command data : Nat)
deriving DecidableEq, Repr

/-- The exceptions `Sca.cxx` can throw: the busy-wait timeout
(`Exceeded timeout on busy wait`) and the SCA error-flag exception of
`Sca::checkError`, carrying the decoded flag list and the message built. -/
inductive ScaError where
  | timeout
  | protocol (flags : List Nat) (message : String)
deriving DecidableEq, Repr

structure ScaResult (α : Type) where
  res : Except ScaError α
  count : Nat
  trace : List Event
deriving Repr

/-- The read oracle: the value register `index` yields at the `k`-th read
operation of the run (values are truncated to 32 bits on read). -/
abbrev ScaEnv : Type := Nat → Nat → Nat

abbrev ScaM (α : Type) : Type := ScaEnv → Nat → ScaResult α

instance : Monad ScaM where
  pure a := fun _ n => ⟨.ok a, n, []⟩
  bind x f := fun env n =>
    let r := x env n
    match r.res with
    | .error e => ⟨.error e, r.count, r.trace⟩
    | .ok a =>
      let s := f a env r.count
      ⟨s.res, s.count, r.trace ++ s.trace⟩

/-- `Sca::barWrite` (offset of every card type being 0). -/
def barWrite (index data : Nat) : ScaM Unit :=
  fun _ n => ⟨.ok (), n, [.barWrite (index + scaOffset) data]⟩

/-- `Sca::barRead`: consumes one value from the oracle, truncated to 32 bits. -/
def barRead (index : Nat) : ScaM Nat :=
  fun env n => ⟨.ok (env n (index + scaOffset) % 4294967296), n + 1,
    [.barRead (index + scaOffset) (env n (index + scaOffset) % 4294967296)]⟩

def throwSca {α : Type} (e : ScaError) : ScaM α := fun _ n => ⟨.error e, n, []⟩

def liftExcept {α : Type} (x : Except ScaError α) : ScaM α := fun _ n => ⟨x, n, []⟩

def emit (e : Event) : ScaM Unit := fun _ n => ⟨.ok (), n, [e]⟩

/-- The loop body of `Sca::waitOnBusyClear`, with the remaining iteration
budget as fuel: read BUSY, return on zero, otherwise keep polling; when the
budget is exhausted, throw the timeout exception. -/
def waitLoop : Nat → ScaM Unit
  | 0 => throwSca .timeout
  | fuel + 1 => do
    let v ← barRead BUSY
    if v = 0 then pure () else waitLoop fuel

/-- `Sca::waitOnBusyClear`. -/
def waitOnBusyClear : ScaM Unit := waitLoop MAX_BUSY_ITERATIONS

/-- `Sca::executeCommand`. -/
def executeCommand : ScaM Unit := do
  barWrite CONTROL 0x4
  barWrite CONTROL 0x0
  waitOnBusyClear

/-- `Sca::write`. The `cmdWrite` marker records the SCA-level call. -/
def scaWrite (command data : Nat) : ScaM Unit := do
  emit (.cmdWrite command data)
  barWrite WRITE_DATA data
  barWrite WRITE_COMMAND command
  executeCommand

/-- `Sca::isChannelBusy`. -/
def isChannelBusy (command : Nat) : Bool := (command &&& 0xff) == 0x40

/-- The poll loop inside `Sca::read`: up to the budget, break as soon as the
(fixed) command word is not channel-busy; falling out of the loop on an
exhausted budget is not an error. The loop performs no register access. -/
def readPollLoop (command : Nat) : Nat → ScaM Unit
  | 0 => pure ()
  | fuel + 1 =>
    if !(isChannelBusy command) then pure () else readPollLoop command fuel

/-- `Utilities::getBit`. -/
def getBit (x i : Nat) : Nat := (x >>> i) &&& 1

/-- The `toString` lambda of `Sca::checkError`. -/
def flagToString (flag : Nat) : String :=
  match flag with
  | 1 => "invalid channel request"
  | 2 => "invalid command request"
  | 3 => "invalid transaction number"
  | 4 => "invalid length"
  | 5 => "channel not enabled"
  | 6 => "channel busy"
  | 7 => "channel busy"
  | _ => "generic error flag"

/-- The flag-collection loop of `Sca::checkError`: the indices among bits
0..6 of the error code that are set, in ascending order. -/
def scaErrorFlags (errorCode : Nat) : List Nat :=
  (List.range 7).filter (fun flag => getBit errorCode flag == 1)

/-- The message-building loop of `Sca::checkError`: after each flag name the
loop appends `", "` when `i < flags.size()` holds (the code's guard, written
exactly as in the source). Note the error code is printed with `<<` in
decimal even though the text says `0x`. -/
def scaErrorMessage (errorCode : Nat) (flags : List Nat) : String :=
  "error code 0x" ++ toString errorCode ++ ": " ++
    String.join ((List.range flags.length).map (fun i =>
      flagToString (flags.getD i 0) ++ if i < flags.length then ", " else ""))

/-- `Sca::checkError`. -/
def checkError (command : Nat) : Except ScaError Unit :=
  let errorCode := command &&& 0xff
  let flags := scaErrorFlags errorCode
  if flags.isEmpty then .ok ()
  else .error (.protocol flags (scaErrorMessage errorCode flags))

/-- `Sca::read`. The `cmdRead` marker records the successful SCA-level
return with the response pair. -/
def scaRead : ScaM (Nat × Nat) := do
  let data ← barRead READ_DATA
  let command ← barRead READ_COMMAND
  readPollLoop command MAX_BUSY_ITERATIONS
  liftExcept (checkError command)
  emit (.cmdRead command data)
  pure (command, data)

/-- `Sca::init`: the four-step CONTROL pulse sequence. -/
def init : ScaM Unit := do
  barWrite CONTROL 0x1
  waitOnBusyClear
  barWrite CONTROL 0x2
  waitOnBusyClear
  barWrite CONTROL 0x1
  waitOnBusyClear
  barWrite CONTROL 0x0

/-- `Sca::gpioEnable`. -/
def gpioEnable : ScaM Unit := do
  scaWrite 0x00010002 0xff000000
  _ ← scaRead
  scaWrite 0x00020003 0xff000000
  _ ← scaRead
  scaWrite 0x02030020 0xffffffff
  scaWrite 0x02040021 0x0
  _ ← scaRead
  pure ()

/-- `Sca::initialize`: `init()` followed by `gpioEnable()`. -/
def initAll : ScaM Unit := do
  init
  gpioEnable

/-- `Sca::gpioWrite`. -/
def gpioWrite (data : Nat) : ScaM (Nat × Nat) := do
  initAll
  scaWrite 0x02040010 data
  scaWrite 0x02050011 0x0
  _ ← scaRead
  scaWrite 0x02060001 0x0
  scaRead

/-- `Sca::gpioRead`. -/
def gpioRead : ScaM (Nat × Nat) := do
  scaWrite 0x02050011 0x0
  scaRead

/-- The kind of an SCA-level call marker. -/
inductive CallKind where
  | w
  | r
deriving DecidableEq, Repr

def callKindOf : Event → Option CallKind
  | .cmdWrite _ _ => some .w
  | .cmdRead _ _ => some .r
  | _ => none

/-- The SCA-level call markers of a trace. -/
def scaCalls (t : List Event) : List Event :=
  t.filter (fun e => (callKindOf e).isSome)

/-- The kinds of the SCA-level calls of a trace. -/
def scaCallKinds (t : List Event) : List CallKind :=
  t.filterMap callKindOf

/-- An oracle on which every register always reads zero: busy-waits return
at once and responses decode with no error flags. -/
def env0 : ScaEnv := fun _ _ => 0

deriving instance DecidableEq for Except

/-- Every event of a successful busy-wait is a read of the BUSY register. -/
def busyReads (t : List Event) : Prop :=
  ∀ e ∈ t, ∃ v, e = .barRead (BUSY + scaOffset) v

end Sca

namespace Roc

inductive CardType where
  | unknown
  | crorc
  | cru
deriving DecidableEq, Repr

structure PciId where
  device : String
  vendor : String
deriving DecidableEq, Repr

structure PciAddress where
  bus : Nat
  dev : Nat
  fn : Nat
deriving DecidableEq, Repr

inductive RocError where
  | couldNotFindCard
  | addressReadFailed
  | serialReadFailed
deriving DecidableEq, Repr

inductive RocErrorKeyed where
  | withSerial (e : RocError) (serial : Int)
  | withAddress (e : RocError) (address : PciAddress)
deriving DecidableEq, Repr

structure CardDescriptor where
  cardType : CardType
  serial : Option Int
  pciId : PciId
  address : PciAddress
  numaNode : Int
deriving DecidableEq, Repr

structure PciDeviceM where
  serialRead : Except RocError (Option Int)
  addressRead : Except RocError PciAddress
  numaNode : Int
deriving DecidableEq, Repr

structure DeviceTypeM where
  cardType : CardType
  pciId : PciId
  devices : List PciDeviceM
deriving DecidableEq, Repr

def buildDescriptor (t : DeviceTypeM) (d : PciDeviceM) : Except RocError CardDescriptor := do
  let s ← d.serialRead
  let a ← d.addressRead
  pure ⟨t.cardType, s, t.pciId, a, d.numaNode⟩

def findInType (t : DeviceTypeM) : List PciDeviceM → List CardDescriptor → Except RocError (List CardDescriptor)
  | [], acc => .ok acc
  | d :: ds, acc => do
    let desc ← buildDescriptor t d
    findInType t ds (acc ++ [desc])

def findSystemDevicesGo : List DeviceTypeM → List CardDescriptor → Except RocError (List CardDescriptor)
  | [], acc => .ok acc
  | t :: ts, acc => do
    let acc2 ← findInType t t.devices acc
    findSystemDevicesGo ts acc2

def findSystemDevices (types : List DeviceTypeM) : Except RocError (List CardDescriptor) :=
  findSystemDevicesGo types []

def flatten (types : List DeviceTypeM) : List (DeviceTypeM × PciDeviceM) :=
  types.flatMap (fun t => t.devices.map (fun d => (t, d)))

/-- Sequencing of per-device descriptor builds, in order: the result of the
whole scan is the build of every device or the first raised error. -/
def mapME {α γ ε : Type} (g : α → Except ε γ) : List α → Except ε (List γ)
  | [] => .ok []
  | a :: l => do
    let x ← g a
    let xs ← mapME g l
    pure (x :: xs)

def cexBadDevice : PciDeviceM := ⟨.error .serialReadFailed, .ok ⟨1, 0, 0⟩, 0⟩

def cexGoodDevice : PciDeviceM := ⟨.ok (some 5), .ok ⟨2, 0, 0⟩, 0⟩

def cexTypes : List DeviceTypeM := [⟨.crorc, ⟨"0033", "10dc"⟩, [cexBadDevice, cexGoodDevice]⟩]

def searchSerialDevices (t : DeviceTypeM) (serial : Int) :
    List PciDeviceM → Except RocError (Option CardDescriptor)
  | [] => .ok none
  | d :: ds => do
    let s ← d.serialRead
    if s = some serial then do
      let a ← d.addressRead
      pure (some ⟨t.cardType, some serial, t.pciId, a, d.numaNode⟩)
    else
      searchSerialDevices t serial ds

def searchSerialTypes (serial : Int) : List DeviceTypeM → Except RocError CardDescriptor
  | [] => .error .couldNotFindCard
  | t :: ts => do
    let r ← searchSerialDevices t serial t.devices
    match r with
    | some desc => pure desc
    | none => searchSerialTypes serial ts

def initWithSerial (types : List DeviceTypeM) (serial : Int) :
    Except RocErrorKeyed CardDescriptor :=
  match searchSerialTypes serial types with
  | .ok desc => .ok desc
  | .error e => .error (.withSerial e serial)

def searchAddressDevices (t : DeviceTypeM) (address : PciAddress) :
    List PciDeviceM → Except RocError (Option CardDescriptor)
  | [] => .ok none
  | d :: ds => do
    let a ← d.addressRead
    if a = address then do
      let s ← d.serialRead
      pure (some ⟨t.cardType, s, t.pciId, address, d.numaNode⟩)
    else
      searchAddressDevices t address ds

def searchAddressTypes (address : PciAddress) : List DeviceTypeM → Except RocError CardDescriptor
  | [] => .error .couldNotFindCard
  | t :: ts => do
    let r ← searchAddressDevices t address t.devices
    match r with
    | some desc => pure desc
    | none => searchAddressTypes address ts

def initWithAddress (types : List DeviceTypeM) (address : PciAddress) :
    Except RocErrorKeyed CardDescriptor :=
  match searchAddressTypes address types with
  | .ok desc => .ok desc
  | .error e => .error (.withAddress e address)

inductive CardIdType where
  | serial (s : Int)
  | address (a : PciAddress)
deriving DecidableEq, Repr

def resolve (types : List DeviceTypeM) : CardIdType → Except RocErrorKeyed CardDescriptor
  | .serial s => initWithSerial types s
  | .address a => initWithAddress types a

def isOkE {ε α : Type} : Except ε α → Bool
  | .ok _ => true
  | .error _ => false

def allReadsOk (types : List DeviceTypeM) : Prop :=
  ∀ t ∈ types, ∀ d ∈ t.devices, isOkE d.serialRead = true ∧ isOkE d.addressRead = true

def matchesKey (cid : CardIdType) (p : DeviceTypeM × PciDeviceM) : Bool :=
  match cid with
  | .serial s => p.2.serialRead == .ok (some s)
  | .address a => p.2.addressRead == .ok a

def notFoundOf : CardIdType → RocErrorKeyed
  | .serial s => .withSerial .couldNotFindCard s
  | .address a => .withAddress .couldNotFindCard a

def witDeviceA : PciDeviceM := ⟨.ok (some 11), .ok ⟨3, 0, 0⟩, 1⟩

def witDeviceB : PciDeviceM := ⟨.ok (some 42), .ok ⟨4, 1, 0⟩, 0⟩

def witTypes : List DeviceTypeM :=
  [⟨.crorc, ⟨"0033", "10dc"⟩, [witDeviceA]⟩, ⟨.cru, ⟨"e001", "1172"⟩, [witDeviceB]⟩]

end Roc

namespace Cru

def setDataGeneratorEnableBits (bits : Nat) (enabled : Bool) : Nat :=
  if enabled then bits ||| 0x1 else bits &&& (0xffffffff ^^^ 0x1)

def setDataGeneratorPatternBits (bits pattern : Nat) : Nat :=
  (bits &&& (0xffffffff ^^^ 0x6)) ||| ((pattern &&& 0x3) <<< 1)

def setDataGeneratorSizeBits (bits size : Nat) : Nat :=
  (bits &&& (0xffffffff ^^^ 0xff00)) ||| (((size / 32 - 1) &&& 0xff) <<< 8)

def setDataGeneratorRandomSizeBits (bits : Nat) (enabled : Bool) : Nat :=
  if enabled then bits ||| 0x10000 else bits &&& (0xffffffff ^^^ 0x10000)

end Cru

namespace Sca

theorem run_pure {α : Type} (a : α) (env : ScaEnv) (n : Nat) :
    (pure a : ScaM α) env n = ⟨.ok a, n, []⟩ := rfl

theorem run_bind {α β : Type} (x : ScaM α) (f : α → ScaM β) (env : ScaEnv) (n : Nat) :
    (x >>= f) env n =
      match (x env n).res with
      | .error e => ⟨.error e, (x env n).count, (x env n).trace⟩
      | .ok a => ⟨(f a env ((x env n).count)).res, (f a env ((x env n).count)).count,
          (x env n).trace ++ (f a env ((x env n).count)).trace⟩ := rfl

theorem waitLoop_succ (fuel : Nat) (env : ScaEnv) (n : Nat) :
    waitLoop (fuel + 1) env n =
      if env n (BUSY + scaOffset) % 4294967296 = 0 then
        ⟨.ok (), n + 1, [.barRead (BUSY + scaOffset) (env n (BUSY + scaOffset) % 4294967296)]⟩
      else
        ⟨(waitLoop fuel env (n + 1)).res, (waitLoop fuel env (n + 1)).count,
          .barRead (BUSY + scaOffset) (env n (BUSY + scaOffset) % 4294967296) ::
            (waitLoop fuel env (n + 1)).trace⟩ := by
  by_cases h : env n (BUSY + scaOffset) % 4294967296 = 0
  · simp only [waitLoop, run_bind, barRead, h, if_true, if_pos]
    rfl
  · simp only [waitLoop, run_bind, barRead, h, if_false, if_neg]
    rfl

theorem waitLoop_timeout (env : ScaEnv) :
    ∀ (fuel n : Nat),
      (∀ k, k < fuel → env (n + k) (BUSY + scaOffset) % 4294967296 ≠ 0) →
      (waitLoop fuel env n).res = .error .timeout ∧
      (waitLoop fuel env n).count = n + fuel := by
  intro fuel
  induction fuel with
  | zero => intro n _; exact ⟨rfl, rfl⟩
  | succ fuel ih =>
    intro n h
    have h0 : ¬ env (n + 0) (BUSY + scaOffset) % 4294967296 = 0 := h 0 (Nat.succ_pos _)
    rw [Nat.add_zero] at h0
    have hrec := ih (n + 1) (fun k hk => by
      have := h (k + 1) (Nat.succ_lt_succ hk)
      have e : n + (k + 1) = n + 1 + k := by omega
      rw [e] at this
      exact this)
    rw [waitLoop_succ, if_neg h0]
    exact ⟨hrec.1, by rw [hrec.2]; omega⟩

theorem waitLoop_clear (env : ScaEnv) :
    ∀ (fuel n j : Nat), j < fuel →
      (∀ k, k < j → env (n + k) (BUSY + scaOffset) % 4294967296 ≠ 0) →
      env (n + j) (BUSY + scaOffset) % 4294967296 = 0 →
      (waitLoop fuel env n).res = .ok () ∧
      (waitLoop fuel env n).count = n + j + 1 := by
  intro fuel
  induction fuel with
  | zero => intro n j hj _ _; exact absurd hj (Nat.not_lt_zero j)
  | succ fuel ih =>
    intro n j hj hbefore hzero
    by_cases h0 : env n (BUSY + scaOffset) % 4294967296 = 0
    · rw [waitLoop_succ, if_pos h0]
      have hj0 : j = 0 := by
        by_contra hne
        have hb := hbefore 0 (Nat.pos_of_ne_zero hne)
        rw [Nat.add_zero] at hb
        exact hb h0
      exact ⟨rfl, by subst hj0; rfl⟩
    · -- the first read is nonzero, so j > 0
      have hjpos : 0 < j := by
        rcases Nat.eq_zero_or_pos j with hj0 | hjpos
        · subst hj0; rw [Nat.add_zero] at hzero; exact absurd hzero h0
        · exact hjpos
      have hrec := ih (n + 1) (j - 1) (by omega)
        (fun k hk => by
          have := hbefore (k + 1) (by omega)
          have e : n + (k + 1) = n + 1 + k := by omega
          rw [e] at this; exact this)
        (by
          have e : n + j = n + 1 + (j - 1) := by omega
          rw [e] at hzero; exact hzero)
      rw [waitLoop_succ, if_neg h0]
      exact ⟨hrec.1, by rw [hrec.2]; omega⟩

theorem readPollLoop_run (command : Nat) :
    ∀ (fuel : Nat) (env : ScaEnv) (n : Nat), readPollLoop command fuel env n = ⟨.ok (), n, []⟩ := by
  intro fuel
  induction fuel with
  | zero => intro env n; rfl
  | succ fuel ih =>
    intro env n
    by_cases h : isChannelBusy command
    · simpa [readPollLoop, h] using ih env n
    · simp [readPollLoop, h]
      rfl

theorem getBit_beq (e f : Nat) : (getBit e f == 1) = e.testBit f := by
  rcases Nat.mod_two_eq_zero_or_one (e / 2 ^ f) with h | h <;>
    simp [getBit, Nat.shiftRight_eq_div_pow, Nat.and_one_is_mod, Nat.testBit_to_div_mod, h]

theorem scaErrorFlags_eq_filter (e : Nat) :
    scaErrorFlags e = (List.range 7).filter (fun flag => e.testBit flag) := by
  simp only [scaErrorFlags, getBit_beq]

theorem testBit_127 (i : Nat) : (127 : Nat).testBit i = decide (i < 7) := by
  have h : (127 : Nat) = 2 ^ 7 - 1 := rfl
  rw [h, Nat.testBit_two_pow_sub_one]

theorem scaErrorFlags_nil_iff (e : Nat) : scaErrorFlags e = [] ↔ e &&& 0x7f = 0 := by
  rw [scaErrorFlags_eq_filter, List.filter_eq_nil_iff]
  constructor
  · intro h
    apply Nat.eq_of_testBit_eq
    intro i
    rw [Nat.testBit_and, Nat.zero_testBit, testBit_127]
    by_cases hi : i < 7
    · have hb := h i (List.mem_range.mpr hi)
      simp only [Bool.not_eq_true] at hb
      simp [hb]
    · simp [hi]
  · intro h i hi
    rw [List.mem_range] at hi
    simp only [Bool.not_eq_true]
    have hz := congrArg (fun x => Nat.testBit x i) h
    have hdec : decide (i < 7) = true := decide_eq_true hi
    simp only [Nat.testBit_and, Nat.zero_testBit, testBit_127, hdec, Bool.and_true] at hz
    exact hz

theorem and_ff_7f (command : Nat) : command &&& 0xff &&& 0x7f = command &&& 0x7f := by
  rw [Nat.and_assoc]
  have h : (0xff : Nat) &&& 0x7f = 0x7f := by decide
  rw [h]

theorem checkError_eq (command : Nat) :
    checkError command =
      if scaErrorFlags (command &&& 0xff) = [] then .ok ()
      else .error (.protocol (scaErrorFlags (command &&& 0xff))
        (scaErrorMessage (command &&& 0xff) (scaErrorFlags (command &&& 0xff)))) := by
  by_cases h : scaErrorFlags (command &&& 0xff) = [] <;>
    simp [checkError, h, List.isEmpty_iff]

theorem map_range_getD {α β : Type} (g : α → β) (d : α) :
    ∀ (l : List α), (List.range l.length).map (fun i => g (l.getD i d)) = l.map g := by
  intro l
  induction l with
  | nil => rfl
  | cons a t ih =>
    rw [List.length_cons, List.range_succ_eq_map, List.map_cons, List.map_map]
    simp only [Function.comp_def, List.getD_cons_succ, List.getD_cons_zero]
    rw [ih, List.map_cons]

theorem scaErrorMessage_eq (e : Nat) (flags : List Nat) :
    scaErrorMessage e flags =
      "error code 0x" ++ toString e ++ ": " ++
        String.join (flags.map (fun f => flagToString f ++ ", ")) := by
  unfold scaErrorMessage
  congr 1
  apply congrArg String.join
  have hcongr : ∀ i ∈ List.range flags.length,
      (flagToString (flags.getD i 0) ++ if i < flags.length then ", " else "") =
      flagToString (flags.getD i 0) ++ ", " := by
    intro i hi
    rw [if_pos (List.mem_range.mp hi)]
  rw [List.map_congr_left hcongr]
  exact map_range_getD (fun x => flagToString x ++ ", ") 0 flags

theorem join_eq_foldl (l : List String) : String.join l = l.foldl (· ++ ·) "" := rfl

theorem foldl_append_sep (g : Nat → String) :
    ∀ (l : List Nat) (acc : String), l ≠ [] →
      ∃ s, (l.map (fun f => g f ++ ", ")).foldl (· ++ ·) acc = s ++ ", " := by
  intro l
  induction l with
  | nil => intro acc h; exact absurd rfl h
  | cons a t ih =>
    intro acc _
    cases t with
    | nil =>
      refine ⟨acc ++ g a, ?_⟩
      simp [String.append_assoc]
    | cons b u =>
      rcases ih (acc ++ (g a ++ ", ")) (by simp) with ⟨s, hs⟩
      exact ⟨s, hs⟩

theorem join_map_sep (g : Nat → String) (l : List Nat) (h : l ≠ []) :
    ∃ s, String.join (l.map (fun f => g f ++ ", ")) = s ++ ", " := by
  rw [join_eq_foldl]
  exact foldl_append_sep g l "" h

/-- Claim C1: in every execution of the SCA busy-wait, if the BUSY register
never reads zero the TimeoutError is raised exactly after the fixed budget of
10,000 polls (the read counter advances by exactly MAX_BUSY_ITERATIONS), not
before and not after; if BUSY reads zero at poll j before the budget is
exhausted, the wait returns normally after exactly j + 1 polls. -/
theorem waitOnBusyClear_budget (env : ScaEnv) (n : Nat) :
    ((∀ k, k < MAX_BUSY_ITERATIONS → env (n + k) (BUSY + scaOffset) % 4294967296 ≠ 0) →
      (waitOnBusyClear env n).res = .error .timeout ∧
      (waitOnBusyClear env n).count = n + MAX_BUSY_ITERATIONS) ∧
    (∀ j, j < MAX_BUSY_ITERATIONS →
      (∀ k, k < j → env (n + k) (BUSY + scaOffset) % 4294967296 ≠ 0) →
      env (n + j) (BUSY + scaOffset) % 4294967296 = 0 →
      (waitOnBusyClear env n).res = .ok () ∧
      (waitOnBusyClear env n).count = n + j + 1) :=
  ⟨fun h => waitLoop_timeout env MAX_BUSY_ITERATIONS n h,
   fun j hj hb hz => waitLoop_clear env MAX_BUSY_ITERATIONS n j hj hb hz⟩

theorem scaRead_run (env : ScaEnv) (n : Nat) :
    scaRead env n =
      ⟨(match checkError (env (n + 1) (READ_COMMAND + scaOffset) % 4294967296) with
        | .ok _ => .ok (env (n + 1) (READ_COMMAND + scaOffset) % 4294967296,
            env n (READ_DATA + scaOffset) % 4294967296)
        | .error e => .error e),
       n + 2,
       [.barRead (READ_DATA + scaOffset) (env n (READ_DATA + scaOffset) % 4294967296),
        .barRead (READ_COMMAND + scaOffset) (env (n + 1) (READ_COMMAND + scaOffset) % 4294967296)] ++
        (match checkError (env (n + 1) (READ_COMMAND + scaOffset) % 4294967296) with
         | .ok _ => [.cmdRead (env (n + 1) (READ_COMMAND + scaOffset) % 4294967296)
            (env n (READ_DATA + scaOffset) % 4294967296)]
         | .error _ => [])⟩ := by
  cases hc : checkError (env (n + 1) (READ_COMMAND + scaOffset) % 4294967296) with
  | ok u =>
    simp [scaRead, run_bind, run_pure, barRead, liftExcept, emit, hc,
      readPollLoop_run]
  | error e =>
    simp [scaRead, run_bind, run_pure, barRead, liftExcept, emit, hc,
      readPollLoop_run]

theorem checkError_no_timeout (command : Nat) : checkError command ≠ .error .timeout := by
  rw [checkError_eq]
  by_cases h : scaErrorFlags (command &&& 0xff) = [] <;> simp [h]

/-- Claim C2: `Sca::read` first reads READ_DATA then READ_COMMAND, consumes
exactly those two register reads, and its poll loop never raises a timeout:
even when the bounded budget is exhausted the result is decided solely by the
error-flag check on the command word (ok, or a protocol error). -/
theorem scaRead_no_timeout (env : ScaEnv) (n : Nat) :
    (scaRead env n).trace.take 2 =
      [.barRead (READ_DATA + scaOffset) (env n (READ_DATA + scaOffset) % 4294967296),
       .barRead (READ_COMMAND + scaOffset) (env (n + 1) (READ_COMMAND + scaOffset) % 4294967296)] ∧
    (scaRead env n).count = n + 2 ∧
    (∀ c m, (readPollLoop c MAX_BUSY_ITERATIONS env m).res ≠ .error .timeout) ∧
    (scaRead env n).res ≠ .error .timeout ∧
    (scaRead env n).res =
      (match checkError (env (n + 1) (READ_COMMAND + scaOffset) % 4294967296) with
       | .ok _ => .ok (env (n + 1) (READ_COMMAND + scaOffset) % 4294967296,
          env n (READ_DATA + scaOffset) % 4294967296)
       | .error e => .error e) := by
  refine ⟨?_, ?_, ?_, ?_, ?_⟩
  · rw [scaRead_run]
    simp [List.take_succ_cons]
  · rw [scaRead_run]
  · intro c m
    rw [readPollLoop_run]
    simp
  · rw [scaRead_run]
    cases hc : checkError (env (n + 1) (READ_COMMAND + scaOffset) % 4294967296) with
    | ok u => simp
    | error e =>
      simp only []
      intro hcontra
      have : e = .timeout := by
        cases hcontra
        rfl
      subst this
      exact checkError_no_timeout _ hc
  · rw [scaRead_run]

/-- Claim C3: `Sca::checkError` raises exactly when one of bits 0-6 of the
low byte of the command word is set; the flags carried by the error are the
set bit indices in ascending order and the message enumerates their decoded
names in that order; for error bits 1 and 4 the message names
"invalid channel request" then "invalid length". -/
theorem checkError_flags (command : Nat) :
    ((∃ flags msg, checkError command = .error (.protocol flags msg)) ↔ command &&& 0x7f ≠ 0) ∧
    (∀ flags msg, checkError command = .error (.protocol flags msg) →
      flags = scaErrorFlags (command &&& 0xff) ∧
      List.Pairwise (· < ·) flags ∧
      msg = "error code 0x" ++ toString (command &&& 0xff) ++ ": " ++
        String.join (flags.map (fun f => flagToString f ++ ", "))) ∧
    checkError 0x12 = .error (.protocol [1, 4]
      "error code 0x18: invalid channel request, invalid length, ") := by
  refine ⟨?_, ?_, by decide⟩
  · rw [checkError_eq]
    by_cases h : scaErrorFlags (command &&& 0xff) = []
    · rw [if_pos h]
      have h7 : command &&& 0x7f = 0 := by
        rw [← and_ff_7f]
        exact (scaErrorFlags_nil_iff (command &&& 0xff)).mp h
      simp [h7]
    · rw [if_neg h]
      have h7 : command &&& 0x7f ≠ 0 := by
        intro hz
        apply h
        rw [scaErrorFlags_nil_iff, and_ff_7f]
        exact hz
      simp [h7]
  · intro flags msg hmatch
    rw [checkError_eq] at hmatch
    by_cases h : scaErrorFlags (command &&& 0xff) = []
    · rw [if_pos h] at hmatch
      exact absurd hmatch (by simp)
    · rw [if_neg h] at hmatch
      have hf : flags = scaErrorFlags (command &&& 0xff) ∧
          msg = scaErrorMessage (command &&& 0xff) (scaErrorFlags (command &&& 0xff)) := by
        cases hmatch
        exact ⟨rfl, rfl⟩
      refine ⟨hf.1, ?_, ?_⟩
      · rw [hf.1, scaErrorFlags_eq_filter]
        exact (List.pairwise_lt_range 7).filter _
      · rw [hf.2, scaErrorMessage_eq, hf.1]

/-- Claim C10: whenever `Sca::checkError` raises, the message appends the
separator ", " after every decoded flag name including the last (the loop
guard `i < flags.size()` is always true), so the message always ends in
", ". -/
theorem checkError_trailing_sep (command : Nat) (flags : List Nat) (msg : String)
    (h : checkError command = .error (.protocol flags msg)) :
    msg = "error code 0x" ++ toString (command &&& 0xff) ++ ": " ++
      String.join (flags.map (fun f => flagToString f ++ ", ")) ∧
    ∃ s, msg = s ++ ", " := by
  rw [checkError_eq] at h
  by_cases hnil : scaErrorFlags (command &&& 0xff) = []
  · rw [if_pos hnil] at h
    exact absurd h (by simp)
  · rw [if_neg hnil] at h
    have hf : flags = scaErrorFlags (command &&& 0xff) ∧
        msg = scaErrorMessage (command &&& 0xff) (scaErrorFlags (command &&& 0xff)) := by
      cases h
      exact ⟨rfl, rfl⟩
    have hmsg : msg = "error code 0x" ++ toString (command &&& 0xff) ++ ": " ++
        String.join (flags.map (fun f => flagToString f ++ ", ")) := by
      rw [hf.2, scaErrorMessage_eq, hf.1]
    refine ⟨hmsg, ?_⟩
    rcases join_map_sep flagToString flags (by rw [hf.1]; exact hnil) with ⟨s, hs⟩
    exact ⟨"error code 0x" ++ toString (command &&& 0xff) ++ ": " ++ s, by
      rw [hmsg, hs]
      simp [String.append_assoc]⟩

/-- Witness for claim C10 at command word 0x12 (error bits 1 and 4). -/
theorem checkError_trailing_sep_witness :
    ("error code 0x18: invalid channel request, invalid length, " =
      "error code 0x" ++ toString (0x12 &&& 0xff) ++ ": " ++
        String.join (([1, 4] : List Nat).map (fun f => flagToString f ++ ", "))) ∧
    ∃ s, "error code 0x18: invalid channel request, invalid length, " = s ++ ", " :=
  checkError_trailing_sep 0x12 [1, 4]
    "error code 0x18: invalid channel request, invalid length, " (by decide)

/-- Claim C6 counterexample: the command word 0x41 has bit 6 of its low
byte set, yet `Sca::isChannelBusy` classifies it as not busy, refuting the
claim that the test depends on bit 6 alone regardless of the other
low-byte bits. -/
theorem isChannelBusy_bit6_cex :
    isChannelBusy 0x41 = false ∧ Nat.testBit 0x41 6 = true := by decide

/-- Claim C6 (amended): `Sca::isChannelBusy` classifies a word as busy
exactly when the low byte equals 0x40: bit 6 set and every other bit of the
low byte clear. -/
theorem isChannelBusy_exact (command : Nat) :
    isChannelBusy command = true ↔
      (command.testBit 6 = true ∧ ∀ i, i < 8 → i ≠ 6 → command.testBit i = false) := by
  have h255 : ∀ i, (255 : Nat).testBit i = decide (i < 8) := by
    intro i
    have h : (255 : Nat) = 2 ^ 8 - 1 := rfl
    rw [h, Nat.testBit_two_pow_sub_one]
  have h64 : ∀ i, (64 : Nat).testBit i = decide (6 = i) := by
    intro i
    have h : (64 : Nat) = 2 ^ 6 := rfl
    rw [h, Nat.testBit_two_pow]
  unfold isChannelBusy
  rw [beq_iff_eq]
  constructor
  · intro h
    constructor
    · have h6 := congrArg (fun x => Nat.testBit x 6) h
      simp only [Nat.testBit_and, h255, h64] at h6
      simpa using h6
    · intro i h8 hne
      have hb := congrArg (fun x => Nat.testBit x i) h
      simp only [Nat.testBit_and, h255, h64] at hb
      have hd8 : decide (i < 8) = true := decide_eq_true h8
      have hd6 : decide (6 = i) = false := decide_eq_false (fun hh => hne hh.symm)
      rw [hd8, hd6, Bool.and_true] at hb
      exact hb
  · rintro ⟨h6, hrest⟩
    apply Nat.eq_of_testBit_eq
    intro i
    rw [Nat.testBit_and, h255, h64]
    by_cases h8 : i < 8
    · rw [decide_eq_true h8, Bool.and_true]
      by_cases h6i : i = 6
      · subst h6i
        simp [h6]
      · rw [hrest i h8 h6i, decide_eq_false (fun hh => h6i hh.symm)]
    · rw [decide_eq_false h8, Bool.and_false]
      rw [decide_eq_false (fun hh : (6 : Nat) = i => by omega)]

theorem bind_ok {α β : Type} {x : ScaM α} {f : α → ScaM β} {env : ScaEnv} {n : Nat} {b : β}
    (h : ((x >>= f) env n).res = .ok b) :
    ∃ a, (x env n).res = .ok a ∧ (f a env (x env n).count).res = .ok b ∧
      (x >>= f) env n = ⟨.ok b, (f a env (x env n).count).count,
        (x env n).trace ++ (f a env (x env n).count).trace⟩ := by
  cases hx : (x env n).res with
  | error e =>
    rw [run_bind, hx] at h
    exact absurd h (by simp)
  | ok a =>
    rw [run_bind, hx] at h
    simp only [] at h
    refine ⟨a, rfl, h, ?_⟩
    rw [run_bind, hx]
    simp only [h]

theorem scaWrite_run (c d : Nat) (env : ScaEnv) (n : Nat) :
    scaWrite c d env n =
      ⟨(waitOnBusyClear env n).res, (waitOnBusyClear env n).count,
       .cmdWrite c d :: .barWrite (WRITE_DATA + scaOffset) d ::
         .barWrite (WRITE_COMMAND + scaOffset) c ::
         .barWrite (CONTROL + scaOffset) 0x4 ::
         .barWrite (CONTROL + scaOffset) 0x0 :: (waitOnBusyClear env n).trace⟩ := rfl

theorem waitLoop_ok_trace (env : ScaEnv) :
    ∀ (fuel n : Nat), (waitLoop fuel env n).res = .ok () →
      busyReads (waitLoop fuel env n).trace := by
  intro fuel
  induction fuel with
  | zero =>
    intro n h
    exact absurd h (by simp [waitLoop, throwSca])
  | succ fuel ih =>
    intro n h e he
    rw [waitLoop_succ] at h he
    by_cases h0 : env n (BUSY + scaOffset) % 4294967296 = 0
    · rw [if_pos h0] at he
      simp only [List.mem_singleton] at he
      exact ⟨_, he⟩
    · rw [if_neg h0] at h he
      simp only [List.mem_cons] at he
      rcases he with he | he
      · exact ⟨_, he⟩
      · exact ih (n + 1) h e he

theorem scaCalls_append (a b : List Event) :
    scaCalls (a ++ b) = scaCalls a ++ scaCalls b := by
  simp [scaCalls, List.filter_append]

theorem scaCalls_busyReads {t : List Event} (h : busyReads t) : scaCalls t = [] := by
  rw [scaCalls, List.filter_eq_nil_iff]
  intro e he
  rcases h e he with ⟨v, rfl⟩
  simp [callKindOf]

theorem scaRead_ok (env : ScaEnv) (m : Nat) (p : Nat × Nat)
    (h : (scaRead env m).res = .ok p) :
    scaRead env m = ⟨.ok p, m + 2,
      [.barRead (READ_DATA + scaOffset) p.2, .barRead (READ_COMMAND + scaOffset) p.1,
       .cmdRead p.1 p.2]⟩ := by
  rw [scaRead_run] at h ⊢
  cases hc : checkError (env (m + 1) (READ_COMMAND + scaOffset) % 4294967296) with
  | ok u =>
    rw [hc] at h
    have h2 : (Except.ok (env (m + 1) (READ_COMMAND + scaOffset) % 4294967296,
        env m (READ_DATA + scaOffset) % 4294967296) : Except ScaError (Nat × Nat)) = .ok p := h
    cases h2
    rfl
  | error e =>
    rw [hc] at h
    have h2 : (Except.error e : Except ScaError (Nat × Nat)) = .ok p := h
    exact Except.noConfusion h2

theorem waitOnBusyClear_ok_trace (env : ScaEnv) (n : Nat)
    (h : (waitOnBusyClear env n).res = .ok ()) :
    busyReads (waitOnBusyClear env n).trace :=
  waitLoop_ok_trace env MAX_BUSY_ITERATIONS n h

theorem scaWrite_calls (c d : Nat) (env : ScaEnv) (n : Nat)
    (h : (scaWrite c d env n).res = .ok ()) :
    scaCalls (scaWrite c d env n).trace = [.cmdWrite c d] := by
  have hw : (waitOnBusyClear env n).res = .ok () := by
    rw [scaWrite_run] at h
    exact h
  have hnil := scaCalls_busyReads (waitOnBusyClear_ok_trace env n hw)
  rw [scaWrite_run]
  simp only [scaCalls, callKindOf, List.filter_cons] at hnil ⊢
  simpa [scaCalls] using hnil

theorem init_ok (env : ScaEnv) (n : Nat) (h : (init env n).res = .ok ()) :
    (waitOnBusyClear env n).res = .ok () ∧
    (waitOnBusyClear env (waitOnBusyClear env n).count).res = .ok () ∧
    (waitOnBusyClear env (waitOnBusyClear env (waitOnBusyClear env n).count).count).res = .ok () ∧
    (init env n).trace =
      .barWrite (CONTROL + scaOffset) 0x1 :: (waitOnBusyClear env n).trace ++
      .barWrite (CONTROL + scaOffset) 0x2 ::
        (waitOnBusyClear env (waitOnBusyClear env n).count).trace ++
      .barWrite (CONTROL + scaOffset) 0x1 ::
        (waitOnBusyClear env (waitOnBusyClear env (waitOnBusyClear env n).count).count).trace ++
      [.barWrite (CONTROL + scaOffset) 0x0] := by
  cases hw1 : (waitOnBusyClear env n).res with
  | error e =>
    rw [init] at h
    simp [run_bind, run_pure, barWrite, hw1] at h
  | ok u1 =>
    cases hw2 : (waitOnBusyClear env (waitOnBusyClear env n).count).res with
    | error e =>
      rw [init] at h
      simp [run_bind, run_pure, barWrite, hw1, hw2] at h
    | ok u2 =>
      cases hw3 : (waitOnBusyClear env
          (waitOnBusyClear env (waitOnBusyClear env n).count).count).res with
      | error e =>
        rw [init] at h
        simp [run_bind, run_pure, barWrite, hw1, hw2, hw3] at h
      | ok u3 =>
        cases u1
        cases u2
        cases u3
        refine ⟨rfl, rfl, rfl, ?_⟩
        rw [init]
        simp [run_bind, run_pure, barWrite, hw1, hw2, hw3]

theorem scaRead_calls (env : ScaEnv) (m : Nat) (p : Nat × Nat)
    (h : (scaRead env m).res = .ok p) :
    scaCalls (scaRead env m).trace = [.cmdRead p.1 p.2] := by
  rw [scaRead_ok env m p h]
  simp [scaCalls, callKindOf]

theorem gpioEnable_calls (env : ScaEnv) (n : Nat) (h : (gpioEnable env n).res = .ok ()) :
    ∃ p1 p2 p3 : Nat × Nat, scaCalls (gpioEnable env n).trace =
      [.cmdWrite 0x00010002 0xff000000, .cmdRead p1.1 p1.2,
       .cmdWrite 0x00020003 0xff000000, .cmdRead p2.1 p2.2,
       .cmdWrite 0x02030020 0xffffffff,
       .cmdWrite 0x02040021 0x0, .cmdRead p3.1 p3.2] := by
  simp only [gpioEnable] at h ⊢
  obtain ⟨u1, hx1, h1, he1⟩ := bind_ok h
  obtain ⟨p1, hx2, h2, he2⟩ := bind_ok h1
  obtain ⟨u2, hx3, h3, he3⟩ := bind_ok h2
  obtain ⟨p2, hx4, h4, he4⟩ := bind_ok h3
  obtain ⟨u3, hx5, h5, he5⟩ := bind_ok h4
  obtain ⟨u4, hx6, h6, he6⟩ := bind_ok h5
  obtain ⟨p3, hx7, h7, he7⟩ := bind_ok h6
  cases u1; cases u2; cases u3; cases u4
  refine ⟨p1, p2, p3, ?_⟩
  rw [he1, he2, he3, he4, he5, he6, he7]
  simp only [scaCalls_append]
  rw [scaWrite_calls _ _ _ _ hx1, scaRead_calls _ _ _ hx2,
    scaWrite_calls _ _ _ _ hx3, scaRead_calls _ _ _ hx4,
    scaWrite_calls _ _ _ _ hx5, scaWrite_calls _ _ _ _ hx6,
    scaRead_calls _ _ _ hx7]
  simp [scaCalls, callKindOf, run_pure]

/-- Claim C8 (amended): a successful `Sca::initialize` performs, in order,
the four-step CONTROL pulse sequence (write 1, wait-not-busy, write 2,
wait-not-busy, write 1, wait-not-busy, write 0) and then the fixed
GPIO-enable command sequence of four writes with literal command/data words
of which the first, second and fourth are each followed by a read; the
GPIO-direction write has no read-back. -/
theorem initAll_structure (env : ScaEnv) (n : Nat) (h : (initAll env n).res = .ok ()) :
    ∃ w1 w2 w3 rest,
      (initAll env n).trace =
        .barWrite (CONTROL + scaOffset) 0x1 :: w1 ++
        .barWrite (CONTROL + scaOffset) 0x2 :: w2 ++
        .barWrite (CONTROL + scaOffset) 0x1 :: w3 ++
        .barWrite (CONTROL + scaOffset) 0x0 :: rest ∧
      busyReads (w1 ++ w2 ++ w3) ∧
      ∃ p1 p2 p3 : Nat × Nat, scaCalls rest =
        [.cmdWrite 0x00010002 0xff000000, .cmdRead p1.1 p1.2,
         .cmdWrite 0x00020003 0xff000000, .cmdRead p2.1 p2.2,
         .cmdWrite 0x02030020 0xffffffff,
         .cmdWrite 0x02040021 0x0, .cmdRead p3.1 p3.2] := by
  simp only [initAll] at h ⊢
  obtain ⟨u, hinit, hgpio, heq⟩ := bind_ok h
  cases u
  obtain ⟨hw1, hw2, hw3, htr⟩ := init_ok env n hinit
  obtain ⟨p1, p2, p3, hcalls⟩ := gpioEnable_calls env _ hgpio
  refine ⟨(waitOnBusyClear env n).trace,
    (waitOnBusyClear env (waitOnBusyClear env n).count).trace,
    (waitOnBusyClear env (waitOnBusyClear env (waitOnBusyClear env n).count).count).trace,
    (gpioEnable env (init env n).count).trace, ?_, ?_, p1, p2, p3, hcalls⟩
  · rw [heq]
    simp only []
    rw [htr]
    simp [List.append_assoc]
  · intro e he
    rcases List.mem_append.mp he with h12 | h3
    · rcases List.mem_append.mp h12 with h1 | h2
      · exact waitOnBusyClear_ok_trace env n hw1 e h1
      · exact waitOnBusyClear_ok_trace env _ hw2 e h2
    · exact waitOnBusyClear_ok_trace env _ hw3 e h3

/-- Claim C7 (amended): a successful `Sca::gpioWrite` first re-runs the full
initialization sequence, then issues exactly three writes with fixed literal
command words of which only the last two are followed by reads (the
output-register write has no read-back), and returns the (command, data)
pair produced by the final read. -/
theorem gpioWrite_structure (env : ScaEnv) (n data : Nat)
    (h : ∃ p, (gpioWrite data env n).res = .ok p) :
    ∃ p rest, (gpioWrite data env n).res = .ok p ∧
      (initAll env n).res = .ok () ∧
      (gpioWrite data env n).trace = (initAll env n).trace ++ rest ∧
      ∃ q : Nat × Nat, scaCalls rest =
        [.cmdWrite 0x02040010 data, .cmdWrite 0x02050011 0x0, .cmdRead q.1 q.2,
         .cmdWrite 0x02060001 0x0, .cmdRead p.1 p.2] := by
  obtain ⟨p, hp⟩ := h
  simp only [gpioWrite] at hp ⊢
  obtain ⟨u0, hinit, hrest, heq⟩ := bind_ok hp
  cases u0
  obtain ⟨u1, hx1, h1, he1⟩ := bind_ok hrest
  obtain ⟨u2, hx2, h2, he2⟩ := bind_ok h1
  obtain ⟨q, hx3, h3, he3⟩ := bind_ok h2
  obtain ⟨u4, hx4, h4, he4⟩ := bind_ok h3
  cases u1; cases u2; cases u4
  refine ⟨p, ?rest, hp, hinit, ?htr, ?hcalls⟩
  case htr => exact congrArg ScaResult.trace heq
  case hcalls =>
    refine ⟨q, ?_⟩
    rw [he1, he2, he3, he4]
    simp only [scaCalls_append]
    rw [scaWrite_calls _ _ _ _ hx1, scaWrite_calls _ _ _ _ hx2,
      scaRead_calls _ _ _ hx3, scaWrite_calls _ _ _ _ hx4,
      scaRead_calls _ _ _ h4]
    simp [scaCalls, callKindOf]

/-- Witness for claim C8 on the all-zero oracle. -/
theorem initAll_structure_witness :
    ∃ w1 w2 w3 rest,
      (initAll env0 0).trace =
        .barWrite (CONTROL + scaOffset) 0x1 :: w1 ++
        .barWrite (CONTROL + scaOffset) 0x2 :: w2 ++
        .barWrite (CONTROL + scaOffset) 0x1 :: w3 ++
        .barWrite (CONTROL + scaOffset) 0x0 :: rest ∧
      busyReads (w1 ++ w2 ++ w3) ∧
      ∃ p1 p2 p3 : Nat × Nat, scaCalls rest =
        [.cmdWrite 0x00010002 0xff000000, .cmdRead p1.1 p1.2,
         .cmdWrite 0x00020003 0xff000000, .cmdRead p2.1 p2.2,
         .cmdWrite 0x02030020 0xffffffff,
         .cmdWrite 0x02040021 0x0, .cmdRead p3.1 p3.2] :=
  initAll_structure env0 0 rfl

/-- Claim C8 counterexample: on the all-zero oracle the GPIO-enable part of
initialization issues the SCA-call sequence write, read, write, read, write,
write, read - seven calls, not the four write/read pairs the claim states. -/
theorem initAll_pairs_cex :
    scaCallKinds ((initAll env0 0).trace) = [.w, .r, .w, .r, .w, .w, .r] ∧
    ([.w, .r, .w, .r, .w, .w, .r] : List CallKind) ≠
      [.w, .r, .w, .r, .w, .r, .w, .r] := by
  exact ⟨rfl, by decide⟩

/-- Witness for claim C7 on the all-zero oracle. -/
theorem gpioWrite_structure_witness :
    ∃ p rest, (gpioWrite 0 env0 0).res = .ok p ∧
      (initAll env0 0).res = .ok () ∧
      (gpioWrite 0 env0 0).trace = (initAll env0 0).trace ++ rest ∧
      ∃ q : Nat × Nat, scaCalls rest =
        [.cmdWrite 0x02040010 0, .cmdWrite 0x02050011 0x0, .cmdRead q.1 q.2,
         .cmdWrite 0x02060001 0x0, .cmdRead p.1 p.2] :=
  gpioWrite_structure env0 0 0 ⟨(0, 0), rfl⟩

/-- Claim C7 counterexample: on the all-zero oracle the part of gpioWrite
after initialization issues the SCA-call sequence write, write, read, write,
read - not the three write/read pairs the claim states. -/
theorem gpioWrite_pairs_cex :
    scaCallKinds (List.drop ((initAll env0 0).trace.length) ((gpioWrite 0 env0 0).trace)) =
      [.w, .w, .r, .w, .r] ∧
    ([.w, .w, .r, .w, .r] : List CallKind) ≠ [.w, .r, .w, .r, .w, .r] := by
  exact ⟨rfl, by decide⟩

end Sca

namespace Roc

theorem bind_error {ε α β : Type} (e : ε) (f : α → Except ε β) :
    ((Except.error e : Except ε α) >>= f) = .error e := rfl

theorem bind_okv {ε α β : Type} (x : α) (f : α → Except ε β) :
    ((Except.ok x : Except ε α) >>= f) = f x := rfl

theorem fmap_error {ε α β : Type} (f : α → β) (e : ε) :
    (f <$> (Except.error e : Except ε α)) = .error e := rfl

theorem fmap_okv {ε α β : Type} (f : α → β) (x : α) :
    (f <$> (Except.ok x : Except ε α)) = .ok (f x) := rfl

theorem emap_error {ε α β : Type} (f : α → β) (e : ε) :
    Except.map f (Except.error e : Except ε α) = .error e := rfl

theorem emap_okv {ε α β : Type} (f : α → β) (x : α) :
    Except.map f (Except.ok x : Except ε α) = .ok (f x) := rfl

theorem ebind_error {ε α β : Type} (e : ε) (f : α → Except ε β) :
    (Except.error e : Except ε α).bind f = .error e := rfl

theorem ebind_okv {ε α β : Type} (x : α) (f : α → Except ε β) :
    (Except.ok x : Except ε α).bind f = f x := rfl

theorem pure_def {ε α : Type} (x : α) : (pure x : Except ε α) = .ok x := rfl

theorem mapME_map {α β γ ε : Type} (f : α → β) (g : β → Except ε γ) :
    ∀ l : List α, mapME g (l.map f) = mapME (fun a => g (f a)) l := by
  intro l
  induction l with
  | nil => rfl
  | cons a t ih =>
    rw [List.map_cons, mapME, mapME, ih]

theorem mapME_append {α γ ε : Type} (g : α → Except ε γ) :
    ∀ (l1 l2 : List α), mapME g (l1 ++ l2) =
      (mapME g l1).bind (fun x => (mapME g l2).map (fun y => x ++ y)) := by
  intro l1
  induction l1 with
  | nil =>
    intro l2
    rw [List.nil_append]
    cases hm : mapME g l2 with
    | error e => simp only [mapME, ebind_okv, hm, emap_error]
    | ok xs => simp only [mapME, ebind_okv, hm, emap_okv, List.nil_append]
  | cons a t ih =>
    intro l2
    rw [List.cons_append, mapME, mapME, ih]
    cases hg : g a with
    | error e => simp only [bind_error, ebind_error]
    | ok x =>
      simp only [bind_okv]
      cases ht : mapME g t with
      | error e =>
        simp only [ebind_error, bind_error, fmap_error, ebind_error]
      | ok xs =>
        simp only [ebind_okv, fmap_okv, bind_okv]
        cases hm : mapME g l2 with
        | error e2 => simp only [emap_error, bind_error, ebind_error, pure_def, ebind_okv]
        | ok ys =>
          simp only [emap_okv, bind_okv, pure_def, ebind_okv, fmap_okv,
            List.cons_append]

theorem mapME_ok_length {α γ ε : Type} (g : α → Except ε γ) :
    ∀ (l : List α) (r : List γ), mapME g l = .ok r → r.length = l.length := by
  intro l
  induction l with
  | nil =>
    intro r h
    cases h
    rfl
  | cons a t ih =>
    intro r h
    rw [mapME] at h
    cases hg : g a with
    | error e =>
      rw [hg, bind_error] at h
      exact Except.noConfusion h
    | ok x =>
      rw [hg, bind_okv] at h
      cases ht : mapME g t with
      | error e =>
        rw [ht, bind_error] at h
        exact Except.noConfusion h
      | ok xs =>
        rw [ht, bind_okv] at h
        rw [show ((do pure (x :: xs)) : Except ε (List γ)) = .ok (x :: xs) from rfl] at h
        cases h
        simp [ih xs ht]

theorem findInType_eq (t : DeviceTypeM) :
    ∀ (ds : List PciDeviceM) (acc : List CardDescriptor),
      findInType t ds acc =
        (mapME (fun d => buildDescriptor t d) ds).map (fun r => acc ++ r) := by
  intro ds
  induction ds with
  | nil => intro acc; simp [findInType, mapME, emap_okv]
  | cons d ds ih =>
    intro acc
    rw [findInType, mapME]
    cases hb : buildDescriptor t d with
    | error e => simp only [bind_error, emap_error]
    | ok x =>
      simp only [bind_okv]
      rw [ih]
      cases hm : mapME (fun d => buildDescriptor t d) ds with
      | error e => simp only [hm, emap_error, bind_error]
      | ok xs =>
        simp only [hm, emap_okv, bind_okv, pure_def]
        simp [List.append_assoc]

theorem findGo_eq :
    ∀ (types : List DeviceTypeM) (acc : List CardDescriptor),
      findSystemDevicesGo types acc =
        (mapME (fun p => buildDescriptor p.1 p.2) (flatten types)).map (fun r => acc ++ r) := by
  intro types
  induction types with
  | nil => intro acc; simp [findSystemDevicesGo, flatten, mapME, emap_okv]
  | cons t ts ih =>
    intro acc
    rw [findSystemDevicesGo]
    have hfl : flatten (t :: ts) =
        t.devices.map (fun d => (t, d)) ++ flatten ts := by
      simp [flatten]
    rw [hfl, mapME_append, mapME_map]
    rw [findInType_eq]
    cases hm : mapME (fun d => buildDescriptor t d) t.devices with
    | error e =>
      have hm2 : mapME (fun a => buildDescriptor (t, a).1 (t, a).2) t.devices = .error e := hm
      simp only [hm, hm2, emap_error, bind_error, ebind_error]
    | ok xs =>
      have hm2 : mapME (fun a => buildDescriptor (t, a).1 (t, a).2) t.devices = .ok xs := hm
      simp only [hm, hm2, emap_okv, bind_okv, ebind_okv]
      rw [ih]
      cases hr : mapME (fun p => buildDescriptor p.1 p.2) (flatten ts) with
      | error e => simp only [emap_error]
      | ok ys => simp only [emap_okv, List.append_assoc]

/-- Claim C4 (amended): `findSystemDevices()` performs no per-device
skipping: its result is exactly the in-order sequencing of every matching
device's descriptor build, so a successful scan returns one descriptor per
device (a serial read yielding no value is an included descriptor with an
absent serial), and any error raised while building a descriptor aborts the
whole enumeration. -/
theorem findSystemDevices_no_skip (types : List DeviceTypeM) :
    findSystemDevices types =
      mapME (fun p => buildDescriptor p.1 p.2) (flatten types) ∧
    (∀ l, findSystemDevices types = .ok l → l.length = (flatten types).length) := by
  have h : findSystemDevices types =
      (mapME (fun p => buildDescriptor p.1 p.2) (flatten types)).map (fun r => [] ++ r) := by
    rw [findSystemDevices, findGo_eq]
  constructor
  · rw [h]
    cases hm : mapME (fun p => buildDescriptor p.1 p.2) (flatten types) with
    | error e => simp only [emap_error]
    | ok xs => simp only [emap_okv, List.nil_append]
  · intro l hl
    rw [h] at hl
    cases hm : mapME (fun p => buildDescriptor p.1 p.2) (flatten types) with
    | error e =>
      rw [hm, emap_error] at hl
      exact Except.noConfusion hl
    | ok xs =>
      rw [hm, emap_okv] at hl
      have h2 : (Except.ok ([] ++ xs) : Except RocError (List CardDescriptor)) = .ok l := hl
      cases h2
      simp [mapME_ok_length _ (flatten types) xs hm]

/-- Claim C4 counterexample: with a device whose serial-read procedure
throws followed by a healthy device, the whole enumeration aborts with the
serial-read error instead of skipping the failing device and returning the
healthy device's descriptor. -/
theorem findSystemDevices_skip_cex :
    findSystemDevices cexTypes = .error .serialReadFailed ∧
    findSystemDevices cexTypes ≠
      .ok [⟨.crorc, some 5, ⟨"0033", "10dc"⟩, ⟨2, 0, 0⟩, 0⟩] := by
  exact ⟨rfl, by decide⟩

/-- Witness for claim C4 on a single healthy device. -/
theorem findSystemDevices_no_skip_witness :
    findSystemDevices [⟨CardType.crorc, ⟨"0033", "10dc"⟩, [cexGoodDevice]⟩] =
      mapME (fun p => buildDescriptor p.1 p.2)
        (flatten [⟨CardType.crorc, ⟨"0033", "10dc"⟩, [cexGoodDevice]⟩]) ∧
    [({ cardType := .crorc, serial := some 5, pciId := ⟨"0033", "10dc"⟩,
        address := ⟨2, 0, 0⟩, numaNode := 0 } : CardDescriptor)].length =
      (flatten [⟨CardType.crorc, ⟨"0033", "10dc"⟩, [cexGoodDevice]⟩]).length :=
  ⟨(findSystemDevices_no_skip _).1,
   (findSystemDevices_no_skip _).2 _ (by decide)⟩

theorem searchSerialDevices_spec (t : DeviceTypeM) (serial : Int) :
    ∀ ds : List PciDeviceM,
      (∀ d ∈ ds, isOkE d.serialRead = true ∧ isOkE d.addressRead = true) →
      (match ds.find? (fun d => d.serialRead == .ok (some serial)) with
       | none => searchSerialDevices t serial ds = .ok none
       | some d => ∃ a, d.addressRead = .ok a ∧
           searchSerialDevices t serial ds =
             .ok (some ⟨t.cardType, some serial, t.pciId, a, d.numaNode⟩)) := by
  intro ds
  induction ds with
  | nil => intro _; simp [searchSerialDevices]
  | cons d ds ih =>
    intro h
    obtain ⟨hs, ha⟩ := h d (List.mem_cons_self d ds)
    cases hsr : d.serialRead with
    | error e =>
      rw [hsr] at hs
      exact absurd hs (by simp [isOkE])
    | ok s =>
      rw [List.find?_cons]
      by_cases heq : s = some serial
      · have hpred : (d.serialRead == .ok (some serial)) = true := by
          rw [hsr, heq]
          exact beq_self_eq_true _
        simp only [hpred]
        cases har : d.addressRead with
        | error e =>
          rw [har] at ha
          exact absurd ha (by simp [isOkE])
        | ok a =>
          refine ⟨a, rfl, ?_⟩
          rw [searchSerialDevices, hsr, bind_okv, if_pos heq, har, bind_okv, pure_def]
      · have hpred : (d.serialRead == .ok (some serial)) = false := by
          rw [hsr]
          exact beq_eq_false_iff_ne.mpr (by simp [heq])
        simp only [hpred]
        have hrec := ih (fun x hx => h x (List.mem_cons_of_mem _ hx))
        rw [searchSerialDevices, hsr, bind_okv, if_neg heq]
        exact hrec

theorem searchSerialTypes_spec (serial : Int) :
    ∀ types : List DeviceTypeM, allReadsOk types →
      (match (flatten types).find? (matchesKey (.serial serial)) with
       | none => searchSerialTypes serial types = .error .couldNotFindCard
       | some p => ∃ a, p.2.addressRead = .ok a ∧
           searchSerialTypes serial types =
             .ok ⟨p.1.cardType, some serial, p.1.pciId, a, p.2.numaNode⟩) := by
  intro types
  induction types with
  | nil => intro _; simp [flatten, searchSerialTypes]
  | cons t ts ih =>
    intro h
    have hdev := searchSerialDevices_spec t serial t.devices
      (fun d hd => h t (List.mem_cons_self t ts) d hd)
    have hts := ih (fun t2 ht2 d hd => h t2 (List.mem_cons_of_mem _ ht2) d hd)
    have hfl : flatten (t :: ts) = t.devices.map (fun d => (t, d)) ++ flatten ts := by
      simp [flatten]
    rw [hfl, List.find?_append, List.find?_map]
    have hcomp : ((matchesKey (.serial serial)) ∘ (fun d => (t, d))) =
        fun d => d.serialRead == .ok (some serial) := rfl
    rw [hcomp]
    cases hfind : t.devices.find? (fun d => d.serialRead == .ok (some serial)) with
    | some d =>
      rw [hfind] at hdev
      obtain ⟨a, har, hres⟩ := hdev
      rw [show (Option.map (fun d => (t, d)) (some d)).or
          ((flatten ts).find? (matchesKey (.serial serial))) = some (t, d) from rfl]
      refine ⟨a, har, ?_⟩
      rw [searchSerialTypes, hres, bind_okv]
      rfl
    | none =>
      rw [hfind] at hdev
      have hstep : searchSerialTypes serial (t :: ts) = searchSerialTypes serial ts := by
        rw [searchSerialTypes, hdev, bind_okv]
      rw [show (Option.map (fun d => (t, d)) none).or
          ((flatten ts).find? (matchesKey (.serial serial))) =
          (flatten ts).find? (matchesKey (.serial serial)) from rfl]
      rw [hstep]
      exact hts

theorem searchAddressDevices_spec (t : DeviceTypeM) (address : PciAddress) :
    ∀ ds : List PciDeviceM,
      (∀ d ∈ ds, isOkE d.serialRead = true ∧ isOkE d.addressRead = true) →
      (match ds.find? (fun d => d.addressRead == .ok address) with
       | none => searchAddressDevices t address ds = .ok none
       | some d => ∃ s, d.serialRead = .ok s ∧
           searchAddressDevices t address ds =
             .ok (some ⟨t.cardType, s, t.pciId, address, d.numaNode⟩)) := by
  intro ds
  induction ds with
  | nil => intro _; simp [searchAddressDevices]
  | cons d ds ih =>
    intro h
    obtain ⟨hs, ha⟩ := h d (List.mem_cons_self d ds)
    cases har : d.addressRead with
    | error e =>
      rw [har] at ha
      exact absurd ha (by simp [isOkE])
    | ok a =>
      rw [List.find?_cons]
      by_cases heq : a = address
      · have hpred : (d.addressRead == .ok address) = true := by
          rw [har, heq]
          exact beq_self_eq_true _
        simp only [hpred]
        cases hsr : d.serialRead with
        | error e =>
          rw [hsr] at hs
          exact absurd hs (by simp [isOkE])
        | ok s =>
          refine ⟨s, rfl, ?_⟩
          rw [searchAddressDevices, har, bind_okv, if_pos heq, hsr, bind_okv, pure_def]
      · have hpred : (d.addressRead == .ok address) = false := by
          rw [har]
          exact beq_eq_false_iff_ne.mpr (by simp [heq])
        simp only [hpred]
        have hrec := ih (fun x hx => h x (List.mem_cons_of_mem _ hx))
        rw [searchAddressDevices, har, bind_okv, if_neg heq]
        exact hrec

theorem searchAddressTypes_spec (address : PciAddress) :
    ∀ types : List DeviceTypeM, allReadsOk types →
      (match (flatten types).find? (matchesKey (.address address)) with
       | none => searchAddressTypes address types = .error .couldNotFindCard
       | some p => ∃ s, p.2.serialRead = .ok s ∧
           searchAddressTypes address types =
             .ok ⟨p.1.cardType, s, p.1.pciId, address, p.2.numaNode⟩) := by
  intro types
  induction types with
  | nil => intro _; simp [flatten, searchAddressTypes]
  | cons t ts ih =>
    intro h
    have hdev := searchAddressDevices_spec t address t.devices
      (fun d hd => h t (List.mem_cons_self t ts) d hd)
    have hts := ih (fun t2 ht2 d hd => h t2 (List.mem_cons_of_mem _ ht2) d hd)
    have hfl : flatten (t :: ts) = t.devices.map (fun d => (t, d)) ++ flatten ts := by
      simp [flatten]
    rw [hfl, List.find?_append, List.find?_map]
    have hcomp : ((matchesKey (.address address)) ∘ (fun d => (t, d))) =
        fun d => d.addressRead == .ok address := rfl
    rw [hcomp]
    cases hfind : t.devices.find? (fun d => d.addressRead == .ok address) with
    | some d =>
      rw [hfind] at hdev
      obtain ⟨s, hsr, hres⟩ := hdev
      rw [show (Option.map (fun d => (t, d)) (some d)).or
          ((flatten ts).find? (matchesKey (.address address))) = some (t, d) from rfl]
      refine ⟨s, hsr, ?_⟩
      rw [searchAddressTypes, hres, bind_okv]
      rfl
    | none =>
      rw [hfind] at hdev
      have hstep : searchAddressTypes address (t :: ts) = searchAddressTypes address ts := by
        rw [searchAddressTypes, hdev, bind_okv]
      rw [show (Option.map (fun d => (t, d)) none).or
          ((flatten ts).find? (matchesKey (.address address))) =
          (flatten ts).find? (matchesKey (.address address)) from rfl]
      rw [hstep]
      exact hts

/-- Claim C5: `RocPciDevice::RocPciDevice(CardIdType)` tries every known
card family in device-type table order, binds to the first device whose
serial number (serial variant) or PCI address (address variant) matches the
search key, and when no device matches raises the not-found error decorated
with the serial number or PCI address that was searched for. -/
theorem resolve_first_match (types : List DeviceTypeM) (cid : CardIdType)
    (h : allReadsOk types) :
    ((flatten types).find? (matchesKey cid) = none →
      resolve types cid = .error (notFoundOf cid)) ∧
    (∀ t d, (flatten types).find? (matchesKey cid) = some (t, d) →
      (match cid with
       | .serial s => ∃ a, d.addressRead = .ok a ∧
           resolve types cid = .ok ⟨t.cardType, some s, t.pciId, a, d.numaNode⟩
       | .address a => ∃ s, d.serialRead = .ok s ∧
           resolve types cid = .ok ⟨t.cardType, s, t.pciId, a, d.numaNode⟩)) := by
  cases cid with
  | serial s =>
    have hspec := searchSerialTypes_spec s types h
    constructor
    · intro hnone
      rw [hnone] at hspec
      rw [resolve, initWithSerial, hspec]
      rfl
    · intro t d hsome
      rw [hsome] at hspec
      obtain ⟨a, har, hres⟩ := hspec
      refine ⟨a, har, ?_⟩
      rw [resolve, initWithSerial, hres]
  | address a =>
    have hspec := searchAddressTypes_spec a types h
    constructor
    · intro hnone
      rw [hnone] at hspec
      rw [resolve, initWithAddress, hspec]
      rfl
    · intro t d hsome
      rw [hsome] at hspec
      obtain ⟨s, hsr, hres⟩ := hspec
      refine ⟨s, hsr, ?_⟩
      rw [resolve, initWithAddress, hres]

/-- Witness for claim C5: a two-family table where the second family holds
the matching serial, and a search for an absent serial. -/
theorem resolve_first_match_witness :
    resolve witTypes (.serial 42) =
      .ok ⟨.cru, some 42, ⟨"e001", "1172"⟩, ⟨4, 1, 0⟩, 0⟩ ∧
    resolve witTypes (.serial 7) = .error (.withSerial .couldNotFindCard 7) := by
  have h1 := resolve_first_match witTypes (.serial 42) (by unfold allReadsOk; decide)
  have h2 := resolve_first_match witTypes (.serial 7) (by unfold allReadsOk; decide)
  constructor
  · obtain ⟨a, har, hres⟩ := h1.2 ⟨.cru, ⟨"e001", "1172"⟩, [witDeviceB]⟩ witDeviceB (by decide)
    have ha : a = ⟨4, 1, 0⟩ := by
      have h3 : (Except.ok (⟨4, 1, 0⟩ : PciAddress) : Except RocError PciAddress) = .ok a := har
      cases h3
      rfl
    rw [ha] at hres
    exact hres
  · exact h2.1 (by decide)

end Roc

namespace Cru

theorem testBit_ffffffff (i : Nat) : (0xffffffff : Nat).testBit i = decide (i < 32) := by
  have h : (0xffffffff : Nat) = 2 ^ 32 - 1 := by norm_num
  rw [h, Nat.testBit_two_pow_sub_one]

theorem testBit_one (i : Nat) (h : i ≠ 0) : (0x1 : Nat).testBit i = false := by
  have e : (0x1 : Nat) = 2 ^ 0 := rfl
  rw [e, Nat.testBit_two_pow]
  exact decide_eq_false (fun hh => h hh.symm)

theorem testBit_six (i : Nat) (h1 : i ≠ 1) (h2 : i ≠ 2) : (0x6 : Nat).testBit i = false := by
  by_cases h0 : i = 0
  · subst h0
    decide
  · have h3 : 3 ≤ i := by omega
    exact Nat.testBit_eq_false_of_lt (by
      have h8 : (8 : Nat) ≤ 2 ^ i := by
        calc (8 : Nat) = 2 ^ 3 := by norm_num
          _ ≤ 2 ^ i := Nat.pow_le_pow_right (by norm_num) h3
      omega)

theorem testBit_ff00 (i : Nat) (h : ¬(8 ≤ i ∧ i < 16)) : (0xff00 : Nat).testBit i = false := by
  have e : (0xff00 : Nat) = 0xff <<< 8 := by decide
  rw [e, Nat.testBit_shiftLeft]
  by_cases h8 : 8 ≤ i
  · have hge : i ≥ 16 := by omega
    have hf : (0xff : Nat).testBit (i - 8) = false := by
      have e2 : (0xff : Nat) = 2 ^ 8 - 1 := by norm_num
      rw [e2, Nat.testBit_two_pow_sub_one]
      exact decide_eq_false (by omega)
    simp [hf]
  · simp [h8]

theorem testBit_x10000 (i : Nat) (h : i ≠ 16) : (0x10000 : Nat).testBit i = false := by
  have e : (0x10000 : Nat) = 2 ^ 16 := by norm_num
  rw [e, Nat.testBit_two_pow]
  exact decide_eq_false (fun hh => h hh.symm)

/-- Claim C9: each generator-register setter (enable, pattern, size,
random-size) changes only the bits of the field it owns: every other bit of
the 32-bit register word is identical before and after the
read-modify-write. -/
theorem generatorSetters_frame (bits i : Nat) (hi : i < 32) :
    (∀ e, i ≠ 0 → (setDataGeneratorEnableBits bits e).testBit i = bits.testBit i) ∧
    (∀ pattern, i ≠ 1 → i ≠ 2 →
      (setDataGeneratorPatternBits bits pattern).testBit i = bits.testBit i) ∧
    (∀ size, ¬(8 ≤ i ∧ i < 16) →
      (setDataGeneratorSizeBits bits size).testBit i = bits.testBit i) ∧
    (∀ e, i ≠ 16 →
      (setDataGeneratorRandomSizeBits bits e).testBit i = bits.testBit i) := by
  have hmask : ∀ (m : Nat), m.testBit i = false →
      (bits &&& (0xffffffff ^^^ m)).testBit i = bits.testBit i := by
    intro m hm
    rw [Nat.testBit_and, Nat.testBit_xor, testBit_ffffffff, hm,
      decide_eq_true hi]
    simp
  refine ⟨?_, ?_, ?_, ?_⟩
  · intro e he
    cases e with
    | true =>
      simp only [setDataGeneratorEnableBits, if_true]
      rw [Nat.testBit_or, testBit_one i he]
      simp
    | false =>
      simp only [setDataGeneratorEnableBits, if_false]
      exact hmask 0x1 (testBit_one i he)
  · intro pattern h1 h2
    rw [setDataGeneratorPatternBits, Nat.testBit_or, hmask 0x6 (testBit_six i h1 h2)]
    have hv : ((pattern &&& 0x3) <<< 1).testBit i = false := by
      rw [Nat.testBit_shiftLeft]
      by_cases h0 : 1 ≤ i
      · have hb : (pattern &&& 0x3).testBit (i - 1) = false := by
          rw [Nat.testBit_and]
          have h3 : (0x3 : Nat).testBit (i - 1) = false :=
            Nat.testBit_eq_false_of_lt (by
              have h4 : (4 : Nat) ≤ 2 ^ (i - 1) := by
                calc (4 : Nat) = 2 ^ 2 := by norm_num
                  _ ≤ 2 ^ (i - 1) := Nat.pow_le_pow_right (by norm_num) (by omega)
              omega)
          simp [h3]
        simp [hb]
      · simp [h0]
    rw [hv]
    simp
  · intro size hs
    rw [setDataGeneratorSizeBits, Nat.testBit_or, hmask 0xff00 (testBit_ff00 i hs)]
    have hv : (((size / 32 - 1) &&& 0xff) <<< 8).testBit i = false := by
      rw [Nat.testBit_shiftLeft]
      by_cases h8 : 8 ≤ i
      · have hb : ((size / 32 - 1) &&& 0xff).testBit (i - 8) = false := by
          rw [Nat.testBit_and]
          have h3 : (0xff : Nat).testBit (i - 8) = false := by
            have e2 : (0xff : Nat) = 2 ^ 8 - 1 := by norm_num
            rw [e2, Nat.testBit_two_pow_sub_one]
            exact decide_eq_false (by omega)
          simp [h3]
        simp [hb]
      · simp [h8]
    rw [hv]
    simp
  · intro e he
    cases e with
    | true =>
      simp only [setDataGeneratorRandomSizeBits, if_true]
      rw [Nat.testBit_or, testBit_x10000 i he]
      simp
    | false =>
      simp only [setDataGeneratorRandomSizeBits, if_false]
      exact hmask 0x10000 (testBit_x10000 i he)

/-- Witness for claim C9 at a concrete register value and bit index. -/
theorem generatorSetters_frame_witness :
    (setDataGeneratorEnableBits 0x12345678 true).testBit 20 = (0x12345678 : Nat).testBit 20 ∧
    (setDataGeneratorPatternBits 0x12345678 2).testBit 20 = (0x12345678 : Nat).testBit 20 ∧
    (setDataGeneratorSizeBits 0x12345678 128).testBit 20 = (0x12345678 : Nat).testBit 20 ∧
    (setDataGeneratorRandomSizeBits 0x12345678 false).testBit 20 = (0x12345678 : Nat).testBit 20 :=
  ⟨(generatorSetters_frame 0x12345678 20 (by decide)).1 true (by decide),
   (generatorSetters_frame 0x12345678 20 (by decide)).2.1 2 (by decide) (by decide),
   (generatorSetters_frame 0x12345678 20 (by decide)).2.2.1 128 (by decide),
   (generatorSetters_frame 0x12345678 20 (by decide)).2.2.2 false (by decide)⟩

end Cru
